import Mathlib

/-!
Shallow embedding of the opendbt wrapper layer
(src/opendbt/__init__.py and src/opendbt/dbtcommon.py).

Python dictionaries are modelled as association lists, Python exceptions
as an explicit error type returned through Except, the dbt runner result
object as a structure, and Python object identity (needed for the
in-place list mutation facts) as addresses into an explicit heap of
lists.
-/

namespace Opendbt

/-- Exception object produced by the base tool (dbt); kept abstract. -/
structure DbtExn where
  msg : String
deriving DecidableEq

/-- Manifest object returned by the parse command; kept abstract. -/
structure Manifest where
  manifestId : Nat
deriving DecidableEq

/-- One run result inside a dbtRunnerResult, with its status and message
(dbt RunResult). -/
structure RunResult where
  status : String
  message : String
deriving DecidableEq

/-- The payload held in the result field of a dbtRunnerResult: a list of
run results for run-style commands, a Manifest for parse, or nothing. -/
inductive DbtPayload where
  | runResults : List RunResult → DbtPayload
  | manifest : Manifest → DbtPayload
  | nonePayload : DbtPayload
deriving DecidableEq

/-- Result object returned by dbtRunner.invoke (dbt dbtRunnerResult). -/
structure dbtRunnerResult where
  success : Bool
  exception : Option DbtExn
  result : DbtPayload
deriving DecidableEq

/-- Python-level exceptions raised by the embedded functions. The
wrappedModuleNotFound constructor records an Exception raised with a
ModuleNotFoundError as its chained cause, carrying the missing module
name. -/
inductive PyExn where
  | valueError : PyExn
  | typeError : PyExn
  | dbtRuntimeError : String → PyExn
  | reraised : DbtExn → PyExn
  | genericExn : PyExn
  | wrappedModuleNotFound : String → PyExn
  | attributeError : PyExn
deriving DecidableEq

/-! ## dbtcommon.py -/

/-- The configuration variable key, dbtcommon.DBT_CUSTOM_ADAPTER_VAR. -/
def DBT_CUSTOM_ADAPTER_VAR : String := "dbt_custom_adapter"

/-- The part of an AdapterRequiredConfig object that
get_custom_adapter_config_value reads: the cli_vars dict and the vars
dict (vars.to_dict()).  A missing attribute (the hasattr checks) is
modelled by none. -/
structure AdapterConfig where
  cli_vars : Option (List (String × String))
  vars : Option (List (String × String))

/-- Python str.strip as used in the config lookup: drop the whitespace
characters from both ends of the string. -/
def pyStrip (s : String) : String :=
  String.mk (((s.data.dropWhile Char.isWhitespace).reverse.dropWhile Char.isWhitespace).reverse)

/-- Embedding of dbtcommon.get_custom_adapter_config_value: first the
cli value, then the dbt_project.yml value; a value passes only when it
is truthy and its strip() is truthy. -/
def get_custom_adapter_config_value (config : AdapterConfig) : Option String :=
  let fromCli : Option String :=
    match config.cli_vars with
    | some cv =>
      match cv.lookup DBT_CUSTOM_ADAPTER_VAR with
      | some v => if v ≠ "" ∧ pyStrip v ≠ "" then some v else none
      | none => none
    | none => none
  match fromCli with
  | some v => some v
  | none =>
    match config.vars with
    | some pv =>
      match pv.lookup DBT_CUSTOM_ADAPTER_VAR with
      | some v => if v ≠ "" ∧ pyStrip v ≠ "" then some v else none
      | none => none
    | none => none

/-- Following the claim words for the config lookup: the value of the
key in the given dict when it is present with a non-blank value,
otherwise none. -/
def dictNonBlankValue (d : Option (List (String × String))) (k : String) : Option String :=
  match d with
  | none => none
  | some l =>
    match l.lookup k with
    | none => none
    | some v => if pyStrip v = "" then none else some v

/-- Helper for the embedding of str.rsplit with a single split on the
last dot: on a character list, returns some (m, c) with
l = m ++ dot :: c and no dot in c, and none when l has no dot. -/
def rsplitLastAux : List Char → Option (List Char × List Char)
  | [] => none
  | ch :: rest =>
    match rsplitLastAux rest with
    | some (m, c) => some (ch :: m, c)
    | none => if ch = '.' then some ([], rest) else none

/-- Embedding of dbtcommon.get_custom_adapter_class_by_name.  The import
system is modelled by env, a partial map from module names to modules,
a module being a partial map from attribute names to values.  A name
without a dot raises ValueError; a module that cannot be imported
raises an Exception chained from the ModuleNotFoundError; a missing
attribute lets the AttributeError of getattr propagate. -/
def get_custom_adapter_class_by_name {α : Type} (env : String → Option (String → Option α))
    (name : String) : Except PyExn α :=
  if '.' ∈ name.data then
    match rsplitLastAux name.data with
    | some (m, c) =>
      let moduleName := String.mk m
      let className := String.mk c
      match env moduleName with
      | none => .error (.wrappedModuleNotFound moduleName)
      | some md =>
        match md className with
        | some v => .ok v
        | none => .error .attributeError
    | none => .error .valueError
  else
    .error .valueError

/-! ## __init__.py: OpenDbtLogger -/

/-- A logging.Logger, identified by its name (the logging registry
returns the same object for the same name). -/
structure Logger where
  name : String
deriving DecidableEq

/-- The part of the logging state the log property touches: the number
of handlers on the opendbt logger and on its ancestor (the root
logger). -/
structure LoggerState where
  opendbtHandlers : Nat
  rootHandlers : Nat
deriving DecidableEq

/-- Logger.hasHandlers walks the logger hierarchy: true when the
opendbt logger or its ancestor has a handler. -/
def LoggerState.hasHandlers (st : LoggerState) : Bool :=
  (st.opendbtHandlers != 0) || (st.rootHandlers != 0)

/-- An OpenDbtLogger instance; logAttr embeds the instance attribute
that caches the logger (None at construction). -/
structure OpenDbtLogger where
  logAttr : Option Logger
deriving DecidableEq

/-- Embedding of the OpenDbtLogger.log property: on a cache miss it gets
the logger named opendbt, and adds a stream handler only when the logger
has no handlers yet; returns the logger together with the updated
instance and logging state. -/
def OpenDbtLogger.log (self : OpenDbtLogger) (st : LoggerState) :
    Logger × OpenDbtLogger × LoggerState :=
  match self.logAttr with
  | some l => (l, self, st)
  | none =>
    let l : Logger := ⟨"opendbt"⟩
    if st.hasHandlers then (l, ⟨some l⟩, st)
    else (l, ⟨some l⟩, { st with opendbtHandlers := st.opendbtHandlers + 1 })

/-! ## __init__.py: OpenDbtCli -/

/-- The body of the for loop at the end of OpenDbtCli.run: per result a
fresh empty message string, extended by itself plus a newline when the
status is error, and a raise of DbtRuntimeError with that result's
message when the string is non-empty.  Returns the raised message, if
any. -/
def runLoop : List RunResult → Option String
  | [] => none
  | r :: rs =>
    let m0 : String := ""
    let m1 : String := if r.status == "error" then m0 ++ (m0 ++ "\n") else m0
    if m1 ≠ "" then some r.message else runLoop rs

/-- Embedding of the static OpenDbtCli.run, from the point where the dbt
runner has produced its result: return it on success, re-raise its
exception when set, otherwise scan the run results and raise
DbtRuntimeError (iterating a non-list payload raises TypeError). -/
def OpenDbtCli.run (result : dbtRunnerResult) : Except PyExn dbtRunnerResult :=
  if result.success then .ok result
  else
    match result.exception with
    | some e => .error (.reraised e)
    | none =>
      match result.result with
      | .runResults rs =>
        match runLoop rs with
        | some msg => .error (.dbtRuntimeError msg)
        | none => .error (.dbtRuntimeError "DBT execution failed!")
      | _ => .error .typeError

/-- Embedding of the argument assembly in OpenDbtCli.invoke: the value
of run_args after the two conditional appends, given the project dir
string, the optional profiles dir string and the caller's args list. -/
def OpenDbtCli.invokeRunArgs (projectDir : String) (profilesDir : Option String)
    (args : List String) : List String :=
  let runArgs := args
  let runArgs1 :=
    if "--project-dir" ∈ runArgs then runArgs
    else runArgs ++ ["--project-dir", projectDir]
  let runArgs2 :=
    match profilesDir with
    | some p =>
      if "--profiles-dir" ∈ runArgs1 then runArgs1
      else runArgs1 ++ ["--profiles-dir", p]
    | none => runArgs1
  runArgs2

/-- Following the claim words for the invoke argument assembly: args
extended with the project-dir pair exactly when the flag is not an
element of args, and further extended with the profiles-dir pair
exactly when a profiles dir was configured and that flag is not an
element of args. -/
def claimedInvokeRunArgs (projectDir : String) (profilesDir : Option String)
    (args : List String) : List String :=
  args ++
    (if "--project-dir" ∈ args then [] else ["--project-dir", projectDir]) ++
    (match profilesDir with
     | some p => if "--profiles-dir" ∈ args then [] else ["--profiles-dir", p]
     | none => [])

/-- Following the amended claim words: as claimedInvokeRunArgs, except
that the profiles-dir condition looks at the already-extended list,
args plus any appended project-dir pair. -/
def amendedInvokeRunArgs (projectDir : String) (profilesDir : Option String)
    (args : List String) : List String :=
  let extended :=
    args ++ (if "--project-dir" ∈ args then [] else ["--project-dir", projectDir])
  extended ++
    (match profilesDir with
     | some p => if "--profiles-dir" ∈ extended then [] else ["--profiles-dir", p]
     | none => [])

/-- The argument list OpenDbtCli.manifest builds before invoking. -/
def OpenDbtCli.manifestArgs (pparse noWriteManifest : Bool) : List String :=
  let args := ["parse"]
  let args := if pparse then args ++ ["--partial-parse"] else args
  let args := if noWriteManifest then args ++ ["--no-write-json"] else args
  args

/-- Embedding of OpenDbtCli.manifest, with the call to self.invoke
abstracted as a function from the argument list to its outcome (an
exception from invoke propagates): return result.result when it is a
Manifest, raise a plain Exception otherwise. -/
def OpenDbtCli.manifest (invoke : List String → Except PyExn dbtRunnerResult)
    (pparse noWriteManifest : Bool) : Except PyExn Manifest :=
  let args := OpenDbtCli.manifestArgs pparse noWriteManifest
  match invoke args with
  | .error e => .error e
  | .ok result =>
    match result.result with
    | .manifest m => .ok m
    | _ => .error .genericExn

/-- The argument list OpenDbtCli.generate_docs passes to invoke; the
Python conditional expression puts the docs generate prefix inside the
truthiness test, so a None or empty args yields the empty list. -/
def OpenDbtCli.generateDocsArgs (args : Option (List String)) : List String :=
  match args with
  | some l => if l.isEmpty then [] else ["docs", "generate"] ++ l
  | none => []

/-- Embedding of the first computation of OpenDbtCli.project_callbacks:
starting from the user callbacks, each comma-separated entry of the
dbt_callbacks project variable is resolved and appended in turn. -/
def OpenDbtCli.projectCallbacksFirst {α : Type} (userCallbacks : List α)
    (projectVars : List (String × String)) (resolve : String → α) : List α :=
  match projectVars.lookup "dbt_callbacks" with
  | some v => (v.splitOn ",").foldl (fun acc m => acc ++ [resolve m]) userCallbacks
  | none => userCallbacks

/-! ## __init__.py: OpenDbtProject.run -/

/-- The fully assembled run_args of OpenDbtProject.run, right before the
write_json handling: command, then the caller args with target,
project-dir and optional profiles-dir pairs appended, then the stored
instance args. -/
def OpenDbtProject.projectRunAssembledArgs (cmd tgt pd : String) (prof : Option String)
    (selfArgs args : List String) : List String :=
  let runArgs := args
  let runArgs := runArgs ++ ["--target", tgt]
  let runArgs := runArgs ++ ["--project-dir", pd]
  let runArgs :=
    match prof with
    | some p => runArgs ++ ["--profiles-dir", p]
    | none => runArgs
  [cmd] ++ runArgs ++ selfArgs

/-- Embedding of OpenDbtProject.run up to (and including) the write_json
handling, before anything is invoked: when write_json is set,
list.remove drops the first occurrence of the no-write-json flag and
raises ValueError when the flag is absent. -/
def OpenDbtProject.projectRunPreInvoke (cmd tgt pd : String) (prof : Option String)
    (selfArgs args : List String) (writeJson : Bool) : Except PyExn (List String) :=
  let runArgs := OpenDbtProject.projectRunAssembledArgs cmd tgt pd prof selfArgs args
  if writeJson then
    if "--no-write-json" ∈ runArgs then .ok (runArgs.erase "--no-write-json")
    else .error .valueError
  else .ok runArgs

/-! ## Heap model for the in-place mutation facts

Python lists are mutable objects; to state which list object a
statement mutates, lists live in a heap addressed by Nat, allocation
appends a cell, and the augmented-assignment on a list extends the
addressed cell in place. -/

/-- A heap of Python list objects, addressed by position. -/
abbrev Heap : Type := List (List String)

/-- Read the list object at an address (empty for a dangling address). -/
def heapGet (h : Heap) (a : Nat) : List String :=
  List.getD h a []

/-- The in-place list extension, list augmented assignment on the
object at address a. -/
def heapExtend (h : Heap) (a : Nat) (xs : List String) : Heap :=
  List.set h a (heapGet h a ++ xs)

/-- Allocation of a fresh list object: the new heap and the address of
the new cell. -/
def heapAlloc (h : Heap) (xs : List String) : Heap × Nat :=
  (h ++ [xs], List.length h)

/-- Heap-level embedding of the argument assembly in OpenDbtCli.invoke:
run_args aliases the caller's list when it is non-empty (otherwise a
fresh empty list is allocated), and each conditional append extends
that object in place.  Returns the heap after the assembly and the
address run_args is bound to. -/
def OpenDbtCli.invokeHeap (projectDir : String) (profilesDir : Option String)
    (h : Heap) (argsAddr : Nat) : Heap × Nat :=
  let start :=
    if (heapGet h argsAddr).isEmpty then heapAlloc h [] else (h, argsAddr)
  let h1 := start.1
  let ra := start.2
  let h2 :=
    if "--project-dir" ∈ heapGet h1 ra then h1
    else heapExtend h1 ra ["--project-dir", projectDir]
  let h3 :=
    match profilesDir with
    | some p =>
      if "--profiles-dir" ∈ heapGet h2 ra then h2
      else heapExtend h2 ra ["--profiles-dir", p]
    | none => h2
  (h3, ra)

/-- Heap-level embedding of the argument assembly in OpenDbtProject.run:
run_args aliases the caller's list when it is non-empty, the three
appends extend that object in place, and the final rebinding
run_args equals command plus run_args plus stored args allocates a NEW
list object.  Returns the heap and the address run_args is bound to at
the end. -/
def OpenDbtProject.runHeapAssemble (cmd tgt pd : String) (prof : Option String)
    (selfArgs : List String) (h : Heap) (argsAddr : Nat) : Heap × Nat :=
  let start :=
    if (heapGet h argsAddr).isEmpty then heapAlloc h [] else (h, argsAddr)
  let h1 := start.1
  let ra := start.2
  let h2 := heapExtend h1 ra ["--target", tgt]
  let h3 := heapExtend h2 ra ["--project-dir", pd]
  let h4 :=
    match prof with
    | some p => heapExtend h3 ra ["--profiles-dir", p]
    | none => h3
  heapAlloc h4 ([cmd] ++ heapGet h4 ra ++ selfArgs)

/-! ## Helper lemmas -/

theorem pyStrip_empty : pyStrip "" = "" := rfl

theorem rsplitLastAux_eq_none_iff (l : List Char) :
    rsplitLastAux l = none ↔ '.' ∉ l := by
  induction l with
  | nil => simp [rsplitLastAux]
  | cons ch rest ih =>
    rw [rsplitLastAux]
    cases h : rsplitLastAux rest with
    | some p =>
      obtain ⟨m, c⟩ := p
      have hmem : '.' ∈ rest := by
        by_contra hx
        rw [ih.mpr hx] at h
        exact Option.noConfusion h
      simp [hmem]
    | none =>
      have hnot : '.' ∉ rest := ih.mp h
      by_cases hc : ch = '.'
      · simp [hc]
      · simp [hc, hnot]
        intro hx
        exact hc hx.symm

theorem rsplitLastAux_sound :
    ∀ (l m c : List Char), rsplitLastAux l = some (m, c) →
      l = m ++ '.' :: c ∧ '.' ∉ c := by
  intro l
  induction l with
  | nil => intro m c h; exact Option.noConfusion h
  | cons ch rest ih =>
    intro m c h
    rw [rsplitLastAux] at h
    cases h2 : rsplitLastAux rest with
    | some p =>
      obtain ⟨m', c'⟩ := p
      rw [h2] at h
      simp only [Option.some.injEq, Prod.mk.injEq] at h
      obtain ⟨hm, hc⟩ := h
      obtain ⟨ih1, ih2⟩ := ih m' c' h2
      subst hm
      subst hc
      simp [ih1, ih2]
    | none =>
      rw [h2] at h
      by_cases hc : ch = '.'
      · rw [if_pos hc] at h
        simp only [Option.some.injEq, Prod.mk.injEq] at h
        obtain ⟨hm, hcc⟩ := h
        subst hm
        subst hcc
        subst hc
        exact ⟨rfl, (rsplitLastAux_eq_none_iff rest).mp h2⟩
      · rw [if_neg hc] at h
        exact Option.noConfusion h

theorem gcacbn_eval {α : Type} (env : String → Option (String → Option α)) (name : String)
    (m c : List Char) (hdot : '.' ∈ name.data) (hs : rsplitLastAux name.data = some (m, c)) :
    get_custom_adapter_class_by_name env name =
      (match env (String.mk m) with
       | none => .error (.wrappedModuleNotFound (String.mk m))
       | some md =>
         match md (String.mk c) with
         | some v => .ok v
         | none => .error .attributeError) := by
  unfold get_custom_adapter_class_by_name
  rw [if_pos hdot, hs]

theorem runLoop_eq_find (rs : List RunResult) :
    runLoop rs = (rs.find? (fun x => x.status == "error")).map (fun x => x.message) := by
  induction rs with
  | nil => rfl
  | cons r rs ih =>
    simp only [runLoop, List.find?]
    cases hb : r.status == "error" with
    | false => simpa [hb] using ih
    | true => simp [hb]

theorem foldl_append_singleton_map {α β : Type} (f : β → α) (l : List β) (acc : List α) :
    l.foldl (fun a b => a ++ [f b]) acc = acc ++ l.map f := by
  induction l generalizing acc with
  | nil => simp
  | cons b l ih => simp [List.foldl, ih]

/-! ## Claim theorems -/

/-- C2: get_custom_adapter_class_by_name raises ValueError if and only if
the name contains no dot; for a name with a dot it splits at the last dot
(the module part before, a dot-free attribute part after), raises an
Exception chained from the ModuleNotFoundError when the module part
cannot be imported, and otherwise returns that attribute of the imported
module. -/
theorem get_custom_adapter_class_by_name_spec {α : Type}
    (env : String → Option (String → Option α)) (name : String) :
    (get_custom_adapter_class_by_name env name = .error .valueError ↔ '.' ∉ name.data) ∧
    (∀ m c, rsplitLastAux name.data = some (m, c) →
      (name.data = m ++ '.' :: c ∧ '.' ∉ c) ∧
      (env (String.mk m) = none →
        get_custom_adapter_class_by_name env name =
          .error (.wrappedModuleNotFound (String.mk m))) ∧
      (∀ md v, env (String.mk m) = some md → md (String.mk c) = some v →
        get_custom_adapter_class_by_name env name = .ok v)) := by
  by_cases hdot : '.' ∈ name.data
  · cases hs : rsplitLastAux name.data with
    | none => exact absurd hdot ((rsplitLastAux_eq_none_iff _).mp hs)
    | some p =>
      obtain ⟨m0, c0⟩ := p
      have heval := gcacbn_eval env name m0 c0 hdot hs
      constructor
      · rw [heval]
        constructor
        · intro h
          cases he : env (String.mk m0) with
          | none =>
            rw [he] at h
            simp at h
          | some md =>
            cases ha : md (String.mk c0) with
            | some v =>
              rw [he] at h
              simp [ha] at h
            | none =>
              rw [he] at h
              simp [ha] at h
        · intro h
          exact absurd hdot h
      · intro m c hmc
        simp only [Option.some.injEq, Prod.mk.injEq] at hmc
        obtain ⟨hm, hc⟩ := hmc
        subst hm
        subst hc
        refine ⟨rsplitLastAux_sound _ _ _ hs, ?_, ?_⟩
        · intro he
          simp [heval, he]
        · intro md v hmd hv
          simp [heval, hmd, hv]
  · have hval : get_custom_adapter_class_by_name env name = .error .valueError := by
      unfold get_custom_adapter_class_by_name
      rw [if_neg hdot]
    refine ⟨by simp [hval, hdot], ?_⟩
    intro m c hs
    obtain ⟨hsplit, _⟩ := rsplitLastAux_sound _ _ _ hs
    exact absurd (by rw [hsplit]; simp) hdot

theorem get_custom_adapter_class_by_name_spec_witness :
    rsplitLastAux ("pkg.mod.Cls" : String).data =
      some (("pkg.mod" : String).data, ("Cls" : String).data) ∧
    get_custom_adapter_class_by_name
      (fun s => if s = "pkg.mod"
                then some (fun t => if t = "Cls" then some (1 : Nat) else none)
                else none)
      "pkg.mod.Cls" = .ok 1 := by
  refine ⟨by decide, ?_⟩
  exact ((get_custom_adapter_class_by_name_spec
      (fun s => if s = "pkg.mod"
                then some (fun t => if t = "Cls" then some (1 : Nat) else none)
                else none)
      "pkg.mod.Cls").2 ("pkg.mod" : String).data ("Cls" : String).data
      (by decide)).2.2
    (fun t => if t = "Cls" then some (1 : Nat) else none) 1 (by rfl) (by rfl)

/-- C3: get_custom_adapter_config_value returns the dbt_custom_adapter
value from the CLI vars when that key is present with a non-blank value,
otherwise the value of the same key from the project vars when present
and non-blank, otherwise none; so CLI vars take precedence and blank or
whitespace-only values count as absent. -/
theorem get_custom_adapter_config_value_spec (config : AdapterConfig) :
    get_custom_adapter_config_value config =
      (match dictNonBlankValue config.cli_vars DBT_CUSTOM_ADAPTER_VAR with
       | some v => some v
       | none => dictNonBlankValue config.vars DBT_CUSTOM_ADAPTER_VAR) := by
  obtain ⟨cli, vs⟩ := config
  cases cli with
  | none =>
    cases vs with
    | none => rfl
    | some pv =>
      cases hl : pv.lookup DBT_CUSTOM_ADAPTER_VAR with
      | none => simp [get_custom_adapter_config_value, dictNonBlankValue, hl]
      | some v =>
        by_cases ht : pyStrip v = ""
        · simp [get_custom_adapter_config_value, dictNonBlankValue, hl, ht]
        · have hv : v ≠ "" := fun hveq => ht (by rw [hveq]; exact pyStrip_empty)
          simp [get_custom_adapter_config_value, dictNonBlankValue, hl, ht, hv]
  | some cv =>
    cases hl : cv.lookup DBT_CUSTOM_ADAPTER_VAR with
    | none =>
      cases vs with
      | none => simp [get_custom_adapter_config_value, dictNonBlankValue, hl]
      | some pv =>
        cases hl2 : pv.lookup DBT_CUSTOM_ADAPTER_VAR with
        | none => simp [get_custom_adapter_config_value, dictNonBlankValue, hl, hl2]
        | some w =>
          by_cases ht2 : pyStrip w = ""
          · simp [get_custom_adapter_config_value, dictNonBlankValue, hl, hl2, ht2]
          · have hw : w ≠ "" := fun hveq => ht2 (by rw [hveq]; exact pyStrip_empty)
            simp [get_custom_adapter_config_value, dictNonBlankValue, hl, hl2, ht2, hw]
    | some v =>
      by_cases ht : pyStrip v = ""
      · cases vs with
        | none => simp [get_custom_adapter_config_value, dictNonBlankValue, hl, ht]
        | some pv =>
          cases hl2 : pv.lookup DBT_CUSTOM_ADAPTER_VAR with
          | none => simp [get_custom_adapter_config_value, dictNonBlankValue, hl, ht, hl2]
          | some w =>
            by_cases ht2 : pyStrip w = ""
            · simp [get_custom_adapter_config_value, dictNonBlankValue, hl, ht, hl2, ht2]
            · have hw : w ≠ "" := fun hveq => ht2 (by rw [hveq]; exact pyStrip_empty)
              simp [get_custom_adapter_config_value, dictNonBlankValue, hl, ht, hl2, ht2, hw]
      · have hv : v ≠ "" := fun hveq => ht (by rw [hveq]; exact pyStrip_empty)
        simp [get_custom_adapter_config_value, dictNonBlankValue, hl, ht, hv]

/-- C1: OpenDbtCli.run returns the result object exactly when its
success flag is true; on failure it never returns normally: it
re-raises the stored exception when present, and otherwise raises
DbtRuntimeError carrying the message of the first run result whose
status is error, or the generic failure message when no run result has
that status. -/
theorem run_spec (r : dbtRunnerResult) (rs : List RunResult) :
    ((OpenDbtCli.run r = .ok r) ↔ r.success = true) ∧
    ((∃ x, OpenDbtCli.run r = .ok x) ↔ r.success = true) ∧
    (∀ e, r.success = false → r.exception = some e →
      OpenDbtCli.run r = .error (.reraised e)) ∧
    (r.success = false → r.exception = none → r.result = .runResults rs →
      OpenDbtCli.run r =
        .error (.dbtRuntimeError
          (match rs.find? (fun x => x.status == "error") with
           | some x => x.message
           | none => "DBT execution failed!"))) := by
  obtain ⟨succ, exc, payload⟩ := r
  cases succ with
  | true =>
    refine ⟨by simp [OpenDbtCli.run], by simp [OpenDbtCli.run], ?_, ?_⟩
    · intro e hf
      exact absurd hf (by simp)
    · intro hf
      exact absurd hf (by simp)
  | false =>
    have herr : ∃ e', OpenDbtCli.run ⟨false, exc, payload⟩ = .error e' := by
      cases exc with
      | some e => exact ⟨.reraised e, by simp [OpenDbtCli.run]⟩
      | none =>
        cases payload with
        | runResults rs2 =>
          cases h2 : runLoop rs2 with
          | some msg => exact ⟨.dbtRuntimeError msg, by simp [OpenDbtCli.run, h2]⟩
          | none =>
            exact ⟨.dbtRuntimeError "DBT execution failed!", by simp [OpenDbtCli.run, h2]⟩
        | manifest m => exact ⟨.typeError, by simp [OpenDbtCli.run]⟩
        | nonePayload => exact ⟨.typeError, by simp [OpenDbtCli.run]⟩
    obtain ⟨e', he'⟩ := herr
    refine ⟨by simp [he'], by simp [he'], ?_, ?_⟩
    · intro e hf hexc
      simp only at hexc
      subst hexc
      simp [OpenDbtCli.run]
    · intro hf hexc hpayload
      simp only at hexc hpayload
      subst hexc
      subst hpayload
      simp only [OpenDbtCli.run, Bool.false_eq_true, if_false]
      rw [runLoop_eq_find]
      cases hfind : rs.find? (fun x => x.status == "error") with
      | some x => simp [hfind]
      | none => simp [hfind]

theorem run_spec_witness :
    (dbtRunnerResult.mk false none
        (.runResults [⟨"success", "m1"⟩, ⟨"error", "boom"⟩])).success = false ∧
    OpenDbtCli.run
        ⟨false, none, .runResults [⟨"success", "m1"⟩, ⟨"error", "boom"⟩]⟩ =
      .error (.dbtRuntimeError "boom") := by
  refine ⟨rfl, ?_⟩
  have h := (run_spec ⟨false, none, .runResults [⟨"success", "m1"⟩, ⟨"error", "boom"⟩]⟩
      [⟨"success", "m1"⟩, ⟨"error", "boom"⟩]).2.2.2 rfl rfl rfl
  have hm : (match List.find? (fun x => x.status == "error")
        [RunResult.mk "success" "m1", RunResult.mk "error" "boom"] with
      | some x => x.message
      | none => "DBT execution failed!") = "boom" := by decide
  rw [hm] at h
  exact h

/-- C5: on first access, project_callbacks equals the user-supplied
callback list followed by one resolved callback per comma-separated
dotted name of the dbt_callbacks project variable, in the order listed;
with no dbt_callbacks variable it equals exactly the user list. -/
theorem project_callbacks_spec {α : Type} (userCallbacks : List α)
    (projectVars : List (String × String)) (resolve : String → α) :
    OpenDbtCli.projectCallbacksFirst userCallbacks projectVars resolve =
      (match projectVars.lookup "dbt_callbacks" with
       | some v => userCallbacks ++ (v.splitOn ",").map resolve
       | none => userCallbacks) := by
  unfold OpenDbtCli.projectCallbacksFirst
  cases projectVars.lookup "dbt_callbacks" with
  | none => rfl
  | some v => exact foldl_append_singleton_map resolve _ _

/-- C6: manifest invokes the base tool with the parse command, the
partial-parse flag exactly when requested and the no-write-json flag
exactly when requested; when the invocation returns, the result payload
is returned exactly when it is a Manifest, and a plain Exception is
raised otherwise. -/
theorem manifest_spec (pparse noWriteManifest : Bool)
    (invoke : List String → Except PyExn dbtRunnerResult) (r : dbtRunnerResult) (m : Manifest) :
    (OpenDbtCli.manifestArgs pparse noWriteManifest).head? = some "parse" ∧
    ("--partial-parse" ∈ OpenDbtCli.manifestArgs pparse noWriteManifest ↔ pparse = true) ∧
    ("--no-write-json" ∈ OpenDbtCli.manifestArgs pparse noWriteManifest ↔
      noWriteManifest = true) ∧
    (invoke (OpenDbtCli.manifestArgs pparse noWriteManifest) = .ok r →
      ((OpenDbtCli.manifest invoke pparse noWriteManifest = .ok m ↔ r.result = .manifest m) ∧
       ((∀ mm, r.result ≠ .manifest mm) →
         OpenDbtCli.manifest invoke pparse noWriteManifest = .error .genericExn))) := by
  refine ⟨?_, ?_, ?_, ?_⟩
  · cases pparse <;> cases noWriteManifest <;> decide
  · cases pparse <;> cases noWriteManifest <;> decide
  · cases pparse <;> cases noWriteManifest <;> decide
  · intro hinv
    simp only [OpenDbtCli.manifest]
    rw [hinv]
    constructor
    · cases hp : r.result with
      | manifest mm => simp [hp]
      | runResults rs2 => simp [hp]
      | nonePayload => simp [hp]
    · intro hall
      cases hp : r.result with
      | manifest mm => exact absurd hp (hall mm)
      | runResults rs2 => simp [hp]
      | nonePayload => simp [hp]

theorem manifest_spec_witness :
    OpenDbtCli.manifest (fun _ => .ok ⟨true, none, .manifest ⟨7⟩⟩) true true = .ok ⟨7⟩ := by
  have h := (manifest_spec true true (fun _ => .ok ⟨true, none, .manifest ⟨7⟩⟩)
      ⟨true, none, .manifest ⟨7⟩⟩ ⟨7⟩).2.2.2 rfl
  exact h.1.mpr rfl

/-- C7: the log property behaves as a singleton on a fresh instance:
the returned logger is the one named opendbt and is cached, a second
access returns the same logger and changes neither the instance nor the
logging state, an access when the logger hierarchy already has handlers
leaves the state unchanged, and at most one handler is ever added. -/
theorem log_singleton_spec (self : OpenDbtLogger) (st : LoggerState)
    (h : self.logAttr = none) :
    ((OpenDbtLogger.log self st).1.name = "opendbt") ∧
    ((OpenDbtLogger.log self st).2.1.logAttr = some (OpenDbtLogger.log self st).1) ∧
    (OpenDbtLogger.log (OpenDbtLogger.log self st).2.1 (OpenDbtLogger.log self st).2.2 =
      ((OpenDbtLogger.log self st).1, (OpenDbtLogger.log self st).2.1,
        (OpenDbtLogger.log self st).2.2)) ∧
    (st.hasHandlers = true → (OpenDbtLogger.log self st).2.2 = st) ∧
    ((OpenDbtLogger.log self st).2.2.opendbtHandlers ≤ st.opendbtHandlers + 1) ∧
    ((OpenDbtLogger.log self st).2.2.rootHandlers = st.rootHandlers) := by
  obtain ⟨la⟩ := self
  cases la with
  | some l => exact absurd h (by simp)
  | none =>
    cases hH : st.hasHandlers with
    | true => simp [OpenDbtLogger.log, hH]
    | false => simp [OpenDbtLogger.log, hH]

theorem log_singleton_spec_witness :
    (OpenDbtLogger.mk none).logAttr = none ∧
    (OpenDbtLogger.log ⟨none⟩ ⟨0, 0⟩).1.name = "opendbt" ∧
    (OpenDbtLogger.log ⟨none⟩ ⟨0, 0⟩).2.2.opendbtHandlers ≤ 0 + 1 := by
  refine ⟨rfl, ?_, ?_⟩
  · exact (log_singleton_spec ⟨none⟩ ⟨0, 0⟩ rfl).1
  · exact (log_singleton_spec ⟨none⟩ ⟨0, 0⟩ rfl).2.2.2.2.1

/-- C10: generate_docs passes the empty argument list to invoke when
args is None or empty, with no docs or generate element; only for a
non-empty args does the passed list equal the docs generate prefix
followed by args. -/
theorem generate_docs_args_spec (l : List String) :
    OpenDbtCli.generateDocsArgs none = [] ∧
    OpenDbtCli.generateDocsArgs (some []) = [] ∧
    "docs" ∉ OpenDbtCli.generateDocsArgs (some []) ∧
    OpenDbtCli.generateDocsArgs (some l) =
      (if l.isEmpty then [] else ["docs", "generate"] ++ l) := by
  refine ⟨rfl, rfl, by decide, rfl⟩

/-- C4 counterexample: with a project dir whose posix string is the
profiles-dir flag itself, the appended project-dir pair makes the code
skip the profiles-dir pair, although the claim, whose membership test is
on args, requires appending it. -/
theorem invoke_args_claim_counterexample :
    OpenDbtCli.invokeRunArgs "--profiles-dir" (some "profdir") [] =
      ["--project-dir", "--profiles-dir"] ∧
    claimedInvokeRunArgs "--profiles-dir" (some "profdir") [] =
      ["--project-dir", "--profiles-dir", "--profiles-dir", "profdir"] ∧
    OpenDbtCli.invokeRunArgs "--profiles-dir" (some "profdir") [] ≠
      claimedInvokeRunArgs "--profiles-dir" (some "profdir") [] := by
  refine ⟨by decide, by decide, by decide⟩

/-- C4 amended: the forwarded list equals args extended with the
project-dir pair exactly when that flag is not an element of args, and
further extended with the profiles-dir pair exactly when a profiles dir
was configured and that flag is not an element of the already-extended
list (args plus any appended project-dir pair); elements of args are
passed through unchanged and in order. -/
theorem invoke_args_amended_spec (pd : String) (prof : Option String) (args : List String) :
    OpenDbtCli.invokeRunArgs pd prof args = amendedInvokeRunArgs pd prof args := by
  cases prof with
  | none =>
    simp only [OpenDbtCli.invokeRunArgs, amendedInvokeRunArgs]
    by_cases h1 : "--project-dir" ∈ args
    · rw [if_pos h1, if_pos h1]
      simp
    · rw [if_neg h1, if_neg h1]
      simp
  | some p =>
    simp only [OpenDbtCli.invokeRunArgs, amendedInvokeRunArgs]
    by_cases h1 : "--project-dir" ∈ args
    · rw [if_pos h1, if_pos h1, List.append_nil]
      by_cases h2 : "--profiles-dir" ∈ args
      · rw [if_pos h2, if_pos h2]
        simp
      · rw [if_neg h2, if_neg h2]
    · rw [if_neg h1, if_neg h1]
      by_cases h2 : "--profiles-dir" ∈ args ++ ["--project-dir", pd]
      · rw [if_pos h2, if_pos h2]
        simp
      · rw [if_neg h2, if_neg h2]

/-- C9 counterexample: with the target string equal to the
no-write-json flag, the flag occurs in neither the args parameter nor
the stored args, yet the call does not raise ValueError: the flag
entered the assembled list through the target pair and is removed. -/
theorem project_run_write_json_counterexample :
    "--no-write-json" ∉ ([] : List String) ∧
    OpenDbtProject.projectRunPreInvoke "build" "--no-write-json" "pd" none [] [] true =
      .ok ["build", "--target", "--project-dir", "pd"] := by
  refine ⟨by decide, by rfl⟩

/-- C9 amended: with write_json true the call raises ValueError exactly
when the no-write-json flag occurs nowhere in the fully assembled
argument list (command, args, the target, project-dir and optional
profiles-dir pairs, and the stored args), before the base tool is ever
invoked; when the flag is present, exactly one occurrence, the first,
is removed. -/
theorem project_run_write_json_amended_spec (cmd tgt pd : String) (prof : Option String)
    (selfArgs args : List String) :
    (OpenDbtProject.projectRunPreInvoke cmd tgt pd prof selfArgs args true =
        .error .valueError ↔
      "--no-write-json" ∉ OpenDbtProject.projectRunAssembledArgs cmd tgt pd prof selfArgs args) ∧
    ("--no-write-json" ∈ OpenDbtProject.projectRunAssembledArgs cmd tgt pd prof selfArgs args →
      OpenDbtProject.projectRunPreInvoke cmd tgt pd prof selfArgs args true =
        .ok ((OpenDbtProject.projectRunAssembledArgs cmd tgt pd prof selfArgs args).erase
          "--no-write-json") ∧
      ((OpenDbtProject.projectRunAssembledArgs cmd tgt pd prof selfArgs args).erase
            "--no-write-json").count "--no-write-json" + 1 =
        (OpenDbtProject.projectRunAssembledArgs cmd tgt pd prof selfArgs args).count
          "--no-write-json") := by
  constructor
  · by_cases hmem : "--no-write-json" ∈
        OpenDbtProject.projectRunAssembledArgs cmd tgt pd prof selfArgs args
    · simp [OpenDbtProject.projectRunPreInvoke, hmem]
    · simp [OpenDbtProject.projectRunPreInvoke, hmem]
  · intro hmem
    constructor
    · simp [OpenDbtProject.projectRunPreInvoke, hmem]
    · have hc := List.count_erase_self "--no-write-json"
        (OpenDbtProject.projectRunAssembledArgs cmd tgt pd prof selfArgs args)
      have hp := List.count_pos_iff.mpr hmem
      omega

theorem project_run_write_json_amended_witness :
    "--no-write-json" ∈
      OpenDbtProject.projectRunAssembledArgs "build" "dev" "p" none ["--no-write-json"] [] ∧
    OpenDbtProject.projectRunPreInvoke "build" "dev" "p" none ["--no-write-json"] [] true =
      .ok ["build", "--target", "dev", "--project-dir", "p"] := by
  refine ⟨by decide, ?_⟩
  have h := (project_run_write_json_amended_spec "build" "dev" "p" none
      ["--no-write-json"] []).2 (by decide)
  rw [h.1]
  exact congrArg Except.ok (by decide)

/-- C8: in the heap model, OpenDbtCli.invoke run on a non-empty caller
list lacking the project-dir flag leaves run_args bound to the caller's
own address (no copy) and that cell holds the assembled run_args, a
strict extension of the caller's list; OpenDbtProject.run appends its
option pairs to the caller's own cell while binding the final run_args
to a freshly allocated object. -/
theorem inplace_mutation_spec (cmd tgt pd : String) (prof : Option String)
    (selfArgs args : List String) (hne : args ≠ []) (hpd : "--project-dir" ∉ args) :
    ((OpenDbtCli.invokeHeap pd prof [args] 0).2 = 0 ∧
     heapGet (OpenDbtCli.invokeHeap pd prof [args] 0).1 0 =
       OpenDbtCli.invokeRunArgs pd prof args ∧
     OpenDbtCli.invokeRunArgs pd prof args ≠ args) ∧
    ((OpenDbtProject.runHeapAssemble cmd tgt pd prof selfArgs [args] 0).2 ≠ 0 ∧
     heapGet (OpenDbtProject.runHeapAssemble cmd tgt pd prof selfArgs [args] 0).1 0 =
       args ++ ["--target", tgt] ++ ["--project-dir", pd] ++
         (match prof with
          | some p => ["--profiles-dir", p]
          | none => [])) := by
  have hget : heapGet [args] 0 = args := rfl
  have hne' : (heapGet [args] 0).isEmpty = false := by
    rw [hget]
    cases args with
    | nil => exact absurd rfl hne
    | cons a l => rfl
  have hsuffix : ∃ rest, OpenDbtCli.invokeRunArgs pd prof args =
      (args ++ ["--project-dir", pd]) ++ rest := by
    cases prof with
    | none => exact ⟨[], by simp [OpenDbtCli.invokeRunArgs, hpd]⟩
    | some p =>
      by_cases hm : "--profiles-dir" ∈ args ++ ["--project-dir", pd]
      · exact ⟨[], by simp [OpenDbtCli.invokeRunArgs, hpd, hm]⟩
      · exact ⟨["--profiles-dir", p], by simp [OpenDbtCli.invokeRunArgs, hpd, hm]⟩
  refine ⟨⟨?_, ?_, ?_⟩, ?_, ?_⟩
  · simp [OpenDbtCli.invokeHeap, heapGet, heapAlloc, hne]
  · cases prof with
    | none =>
      simp [OpenDbtCli.invokeHeap, OpenDbtCli.invokeRunArgs, hne, hpd,
        heapExtend, heapGet, heapAlloc]
    | some p =>
      by_cases hm : "--profiles-dir" ∈ args ++ ["--project-dir", pd]
      · simp [OpenDbtCli.invokeHeap, OpenDbtCli.invokeRunArgs, hne, hpd, hm,
          heapExtend, heapGet, heapAlloc]
      · simp [OpenDbtCli.invokeHeap, OpenDbtCli.invokeRunArgs, hne, hpd, hm,
          heapExtend, heapGet, heapAlloc]
  · intro heq
    obtain ⟨rest, hr⟩ := hsuffix
    rw [heq] at hr
    have hl := congrArg List.length hr
    simp [List.length_append] at hl
  · cases prof with
    | none => simp [OpenDbtProject.runHeapAssemble, hne, heapAlloc, heapExtend, heapGet]
    | some p => simp [OpenDbtProject.runHeapAssemble, hne, heapAlloc, heapExtend, heapGet]
  · cases prof with
    | none =>
      simp [OpenDbtProject.runHeapAssemble, hne, heapAlloc, heapExtend, heapGet]
    | some p =>
      simp [OpenDbtProject.runHeapAssemble, hne, heapAlloc, heapExtend, heapGet]

theorem inplace_mutation_spec_witness :
    (["run"] : List String) ≠ [] ∧
    "--project-dir" ∉ (["run"] : List String) ∧
    heapGet (OpenDbtCli.invokeHeap "p" none [["run"]] 0).1 0 = ["run", "--project-dir", "p"] := by
  refine ⟨by decide, by decide, ?_⟩
  have h := (inplace_mutation_spec "build" "dev" "p" none [] ["run"]
      (by decide) (by decide)).1.2.1
  rw [h]
  decide

end Opendbt
